import Mathlib

/-!
Shallow embedding of src/resnet.py (repository RESGraph): a Reference Energy
System modelled as a directed attributed graph built on networkx.DiGraph.

Modelling decisions, each traceable to the source:
  - Python dicts are insertion-ordered association lists; dict write is
    replace-in-place when the key is present, append otherwise; d.update is a
    left fold of writes.  This matches CPython dict semantics.
  - Keyword-argument expansion f(k1 = v1, ..., **d1, **d2) concatenates the
    bindings and fails with TypeError when a key repeats (CPython raises
    TypeError: got multiple values for keyword argument).
  - The skeleton file on disk is modelled as a function from paths to the
    optional parsed JSON content; a missing file is none (FileNotFoundError).
  - Fallible Python code (KeyError from structure lookup, TypeError from a
    repeated keyword) is embedded in Except PyErr.
  - JSON values occurring as schema defaults are restricted to the scalar
    fragment the program manipulates.
-/

namespace ResNet

/-- Scalar JSON-style values: attribute values and schema defaults. -/
inductive JVal where
  | str : String → JVal
  | num : Int → JVal
  | boolean : Bool → JVal
  | jnull : JVal
deriving DecidableEq, Repr

/-- A Python dict with String keys, as an insertion-ordered association list. -/
abbrev AttrD := List (String × JVal)

/-- Python dict read d.get(k): the first (and in a well-formed dict, only)
binding of the key. -/
def alookup {α β : Type} [DecidableEq α] : List (α × β) → α → Option β
  | [], _ => none
  | (k, v) :: rest, key => if k = key then some v else alookup rest key

/-- Python dict write d[k] = v: replace in place when the key is present,
append otherwise. -/
def aset {α β : Type} [DecidableEq α] : List (α × β) → α → β → List (α × β)
  | [], key, val => [(key, val)]
  | (k, v) :: rest, key, val =>
    if k = key then (key, val) :: rest else (k, v) :: aset rest key val

/-- Python d.update(other): fold the writes of other over d, in order. -/
def dupdate {α β : Type} [DecidableEq α] (d other : List (α × β)) :
    List (α × β) :=
  other.foldl (fun acc kv => aset acc kv.1 kv.2) d

/-- One entry of the skeleton: the set of index codes the parameter or
variable applies to, and its default value (src/resnet.py uses
param_ft with keys indices and default). -/
structure FieldSpec where
  indices : List String
  default : JVal
deriving DecidableEq, Repr

/-- The parsed skeleton JSON document (ResGraph.structure).  The top-level
keys params and variables may each be absent: the empty dict returned by
load_structure on a missing file has neither. -/
structure StructureData where
  params : Option (List (String × FieldSpec))
  vars : Option (List (String × FieldSpec))
deriving DecidableEq, Repr

/-- Python exceptions the embedded code can raise. -/
inductive PyErr where
  | keyError : String → PyErr
  | typeError : String → PyErr
deriving DecidableEq, Repr

/-- ResGraph.load_structure (src/resnet.py lines 51-59): read and parse the
skeleton file; on FileNotFoundError print a warning and return the empty
dict, modelled as the StructureData with neither top-level key.  The
argument is the content of the file at skeleton_path, none when missing. -/
def load_structure (fileContent : Option StructureData) : StructureData :=
  match fileContent with
  | some d => d
  | none => { params := none, vars := none }

/-- ResGraph.get_params (src/resnet.py lines 61-69):
structure dict access raises KeyError when the params key is absent;
otherwise a dict comprehension keeps each parameter whose indices contain
the given index, mapped to its default. -/
def get_params (st : StructureData) (index : String) : Except PyErr AttrD :=
  match st.params with
  | none => .error (.keyError "params")
  | some ps => .ok (ps.filterMap fun pft =>
      if index ∈ pft.2.indices then some (pft.1, pft.2.default) else none)

/-- ResGraph.get_variables (src/resnet.py lines 71-79): analogous to
get_params over the variables collection. -/
def get_variables (st : StructureData) (index : String) : Except PyErr AttrD :=
  match st.vars with
  | none => .error (.keyError "variables")
  | some vs => .ok (vs.filterMap fun vft =>
      if index ∈ vft.2.indices then some (vft.1, vft.2.default) else none)

/-- The graph state: the loaded structure (ResGraph.structure; the Python
field name is a Lean keyword, hence struct), the node dict of
networkx.DiGraph (label to attribute dict, insertion ordered) and the edge
dict (ordered pair to attribute dict). -/
structure ResGraph where
  skeleton_path : String
  struct : StructureData
  nodes : List (String × AttrD)
  edges : List ((String × String) × AttrD)
deriving DecidableEq, Repr

/-- ResGraph.__post_init__ (src/resnet.py lines 41-49): initialize the empty
DiGraph and load the structure from the file at skeleton_path.  The
filesystem is a function from paths to optional parsed content. -/
def ResGraph.init (fsys : String → Option StructureData)
    (skeleton_path : String := "./Structure/skeleton.json") : ResGraph :=
  { skeleton_path := skeleton_path
    struct := load_structure (fsys skeleton_path)
    nodes := []
    edges := [] }

/-- networkx DiGraph.add_node: a new label gets a fresh attribute dict
updated with the supplied attributes; an existing label has the supplied
attributes merged into its current dict.  Adjacency is untouched. -/
def addNode (g : ResGraph) (n : String) (attr : AttrD) : ResGraph :=
  match alookup g.nodes n with
  | none => { g with nodes := g.nodes ++ [(n, dupdate [] attr)] }
  | some d => { g with nodes := aset g.nodes n (dupdate d attr) }

/-- networkx DiGraph.add_edge: auto-create either endpoint that is not yet a
node, with an empty attribute dict; then merge the supplied attributes into
the (possibly pre-existing) edge datadict keyed by the ordered pair. -/
def addEdge (g : ResGraph) (u v : String) (attr : AttrD) : ResGraph :=
  let gu : ResGraph :=
    if (alookup g.nodes u).isSome then g
    else { g with nodes := g.nodes ++ [(u, [])] }
  let guv : ResGraph :=
    if (alookup gu.nodes v).isSome then gu
    else { gu with nodes := gu.nodes ++ [(v, [])] }
  { guv with
    edges := aset guv.edges (u, v)
      (dupdate ((alookup guv.edges (u, v)).getD []) attr) }

/-- Python keyword-argument assembly for a call
f(k1 = v1, ..., **d1, **d2): the bindings concatenate in order, and CPython
raises TypeError when any keyword repeats. -/
def buildKwargs (base p v : AttrD) : Except PyErr AttrD :=
  if (((base ++ p ++ v).map Prod.fst).Nodup : Prop) then .ok (base ++ p ++ v)
  else .error (.typeError "got multiple values for keyword argument")

/-- The explicit keyword bindings of the add_node call in add_technology:
tech_type = tech_type, layer = layer, index = index. -/
def techBase (tech_type : String) (layer : Int) (index : String) : AttrD :=
  [("tech_type", JVal.str tech_type), ("layer", JVal.num layer),
   ("index", JVal.str index)]

/-- The explicit keyword bindings of the add_edge call in add_fuel:
fuel_label = fuel_label, fuel_type = fuel_type, index = index. -/
def fuelBase (fuel_label fuel_type index : String) : AttrD :=
  [("fuel_label", JVal.str fuel_label), ("fuel_type", JVal.str fuel_type),
   ("index", JVal.str index)]

/-- ResGraph.add_technology (src/resnet.py lines 81-123): fetch the schema
parameters and variables for the index (default "t"), then
self.add_node(tech_label, tech_type = tech_type, layer = layer,
index = index, **node_params, **node_vars). -/
def add_technology (g : ResGraph) (tech_label tech_type : String) (layer : Int)
    (index : String := "t") : Except PyErr ResGraph := do
  let node_params ← get_params g.struct index
  let node_vars ← get_variables g.struct index
  let attrs ← buildKwargs (techBase tech_type layer index)
    node_params node_vars
  return addNode g tech_label attrs

/-- ResGraph.add_fuel (src/resnet.py lines 125-156): fetch the schema
parameters and variables for the index (default "f"), then
self.add_edge(tech_from, tech_to, fuel_label = fuel_label,
fuel_type = fuel_type, index = index, **edge_params, **edge_vars). -/
def add_fuel (g : ResGraph) (tech_from tech_to fuel_label fuel_type : String)
    (index : String := "f") : Except PyErr ResGraph := do
  let edge_params ← get_params g.struct index
  let edge_vars ← get_variables g.struct index
  let attrs ← buildKwargs (fuelBase fuel_label fuel_type index)
    edge_params edge_vars
  return addEdge g tech_from tech_to attrs

/-- ResGraph.get_params viewed as a method call on the graph state: it reads
self.structure and returns the fresh comprehension dict together with the
state, which the method body never assigns to. -/
def ResGraph.get_params_m (g : ResGraph) (index : String) :
    Except PyErr (AttrD × ResGraph) :=
  (get_params g.struct index).map (fun r => (r, g))

/-- ResGraph.get_variables viewed as a method call on the graph state. -/
def ResGraph.get_variables_m (g : ResGraph) (index : String) :
    Except PyErr (AttrD × ResGraph) :=
  (get_variables g.struct index).map (fun r => (r, g))

/-- Test fixture: the schema of the spec's end-to-end scenario — one
parameter Capacity tagged for index "technology" with default 0. -/
def skTechnology : StructureData :=
  { params := some [("Capacity", ⟨["technology"], JVal.num 0⟩)]
    vars := some [] }

/-- Test fixture: one parameter and one variable tagged for the actual
default technology index code "t". -/
def skT : StructureData :=
  { params := some [("Capacity", ⟨["t"], JVal.num 0⟩)]
    vars := some [("NewCapacity", ⟨["t"], JVal.num 1⟩)] }

/-- Test fixture: a well-formed schema with no entries. -/
def skEmpty : StructureData :=
  { params := some [], vars := some [] }

/-- Test fixture: a schema parameter named tech_type tagged for index "t",
colliding with the base keyword of add_technology. -/
def skClash : StructureData :=
  { params := some [("tech_type", ⟨["t"], JVal.num 7⟩)]
    vars := some [] }

/-- Test fixture: one parameter and one variable tagged for the actual
default fuel index code "f". -/
def skF : StructureData :=
  { params := some [("CapacityToActivityUnit", ⟨["f"], JVal.num 1⟩)]
    vars := some [("UseByTechnology", ⟨["f"], JVal.num 0⟩)] }

/-- A filesystem holding the given parsed skeleton at every path. -/
def fsysOf (st : StructureData) : String → Option StructureData :=
  fun _ => some st

/-- The filesystem with no skeleton file anywhere. -/
def fsysMissing : String → Option StructureData :=
  fun _ => none

/-! Association-list (Python dict) lemmas. -/

theorem alookup_aset_self {α β : Type} [DecidableEq α]
    (l : List (α × β)) (k : α) (v : β) :
    alookup (aset l k v) k = some v := by
  induction l with
  | nil => simp [aset, alookup]
  | cons hd tl ih =>
    obtain ⟨k0, v0⟩ := hd
    by_cases h : k0 = k
    · subst h
      simp [aset, alookup]
    · simp [aset, alookup, h, ih]

theorem alookup_aset_ne {α β : Type} [DecidableEq α]
    (l : List (α × β)) (k k' : α) (v : β) (h : k' ≠ k) :
    alookup (aset l k v) k' = alookup l k' := by
  induction l with
  | nil =>
    simp only [aset, alookup]
    rw [if_neg (fun hh => h hh.symm)]
  | cons hd tl ih =>
    obtain ⟨k0, v0⟩ := hd
    by_cases hk : k0 = k
    · subst hk
      simp only [aset, if_pos rfl, alookup]
      rw [if_neg (fun hh => h hh.symm), if_neg (fun hh => h hh.symm)]
    · simp only [aset, if_neg hk, alookup]
      by_cases hk' : k0 = k'
      · rw [if_pos hk', if_pos hk']
      · rw [if_neg hk', if_neg hk', ih]

theorem aset_eq_self_of_alookup {α β : Type} [DecidableEq α]
    {l : List (α × β)} {k : α} {v : β} (h : alookup l k = some v) :
    aset l k v = l := by
  induction l with
  | nil => simp [alookup] at h
  | cons hd tl ih =>
    obtain ⟨k0, v0⟩ := hd
    by_cases hk : k0 = k
    · subst hk
      have hv : v0 = v := by simpa [alookup] using h
      subst hv
      simp [aset]
    · simp only [alookup, if_neg hk] at h
      simp [aset, hk, ih h]

theorem aset_append_of_alookup_none {α β : Type} [DecidableEq α]
    {l : List (α × β)} {k : α} (v : β) (h : alookup l k = none) :
    aset l k v = l ++ [(k, v)] := by
  induction l with
  | nil => simp [aset]
  | cons hd tl ih =>
    obtain ⟨k0, v0⟩ := hd
    by_cases hk : k0 = k
    · simp [alookup, hk] at h
    · simp only [alookup, if_neg hk] at h
      simp [aset, hk, ih h]

theorem aset_length_of_alookup_some {α β : Type} [DecidableEq α]
    {l : List (α × β)} {k : α} (v : β) (h : (alookup l k).isSome) :
    (aset l k v).length = l.length := by
  induction l with
  | nil => simp [alookup] at h
  | cons hd tl ih =>
    obtain ⟨k0, v0⟩ := hd
    by_cases hk : k0 = k
    · simp [aset, hk]
    · simp only [alookup, if_neg hk] at h
      simp [aset, hk, ih h]

theorem aset_keys_of_alookup_some {α β : Type} [DecidableEq α]
    {l : List (α × β)} {k : α} (v : β) (h : (alookup l k).isSome) :
    (aset l k v).map Prod.fst = l.map Prod.fst := by
  induction l with
  | nil => simp [alookup] at h
  | cons hd tl ih =>
    obtain ⟨k0, v0⟩ := hd
    by_cases hk : k0 = k
    · subst hk
      simp [aset]
    · simp only [alookup, if_neg hk] at h
      simp [aset, hk, ih h]

theorem alookup_append_of_none {α β : Type} [DecidableEq α]
    {l1 : List (α × β)} (l2 : List (α × β)) {k : α}
    (h : alookup l1 k = none) :
    alookup (l1 ++ l2) k = alookup l2 k := by
  induction l1 with
  | nil => rfl
  | cons hd tl ih =>
    obtain ⟨k0, v0⟩ := hd
    by_cases hk : k0 = k
    · simp [alookup, hk] at h
    · simp only [alookup, if_neg hk] at h
      simpa [alookup, hk] using ih h

theorem alookup_append_of_some {α β : Type} [DecidableEq α]
    {l1 : List (α × β)} (l2 : List (α × β)) {k : α} {v : β}
    (h : alookup l1 k = some v) :
    alookup (l1 ++ l2) k = some v := by
  induction l1 with
  | nil => simp [alookup] at h
  | cons hd tl ih =>
    obtain ⟨k0, v0⟩ := hd
    by_cases hk : k0 = k
    · simp only [alookup, if_pos hk] at h
      simp [alookup, hk, h]
    · simp only [alookup, if_neg hk] at h
      simpa [alookup, hk] using ih h

theorem alookup_none_of_not_mem_keys {α β : Type} [DecidableEq α]
    {l : List (α × β)} {k : α} (h : k ∉ l.map Prod.fst) :
    alookup l k = none := by
  induction l with
  | nil => rfl
  | cons hd tl ih =>
    obtain ⟨k0, v0⟩ := hd
    simp only [List.map_cons, List.mem_cons, not_or] at h
    simp only [alookup]
    rw [if_neg (fun hh => h.1 hh.symm)]
    exact ih h.2

theorem mem_keys_of_alookup_some {α β : Type} [DecidableEq α]
    {l : List (α × β)} {k : α} {v : β} (h : alookup l k = some v) :
    k ∈ l.map Prod.fst := by
  by_contra hc
  rw [alookup_none_of_not_mem_keys hc] at h
  cases h

theorem alookup_of_nodup_mem {α β : Type} [DecidableEq α]
    {l : List (α × β)} {k : α} {v : β}
    (hnd : (l.map Prod.fst).Nodup) (h : (k, v) ∈ l) :
    alookup l k = some v := by
  induction l with
  | nil => cases h
  | cons hd tl ih =>
    obtain ⟨k0, v0⟩ := hd
    simp only [List.map_cons, List.nodup_cons] at hnd
    rcases List.mem_cons.mp h with h | h
    · rw [Prod.mk.injEq] at h
      obtain ⟨rfl, rfl⟩ := h
      simp [alookup]
    · by_cases hk : k0 = k
      · subst hk
        exact absurd (List.mem_map_of_mem Prod.fst h) hnd.1
      · simp only [alookup, if_neg hk]
        exact ih hnd.2 h

/-! Python d.update lemmas. -/

theorem dupdate_cons {α β : Type} [DecidableEq α]
    (d : List (α × β)) (k : α) (v : β) (rest : List (α × β)) :
    dupdate d ((k, v) :: rest) = dupdate (aset d k v) rest := rfl

theorem dupdate_eq_append {α β : Type} [DecidableEq α]
    {d other : List (α × β)}
    (hdisj : ∀ k ∈ other.map Prod.fst, alookup d k = none)
    (hnd : (other.map Prod.fst).Nodup) :
    dupdate d other = d ++ other := by
  induction other generalizing d with
  | nil => simp [dupdate]
  | cons hd tl ih =>
    obtain ⟨k, v⟩ := hd
    simp only [List.map_cons, List.nodup_cons] at hnd
    rw [dupdate_cons,
        aset_append_of_alookup_none v (hdisj k (by simp))]
    have hdisj2 : ∀ k' ∈ tl.map Prod.fst, alookup (d ++ [(k, v)]) k' = none := by
      intro k' hk'
      have hne : k ≠ k' := fun hh => hnd.1 (by rw [hh]; exact hk')
      rw [alookup_append_of_none _ (hdisj k' (by simp [hk']))]
      simp [alookup, hne]
    rw [ih hdisj2 hnd.2, List.append_assoc]
    rfl

theorem dupdate_nil_left {α β : Type} [DecidableEq α]
    {other : List (α × β)} (hnd : (other.map Prod.fst).Nodup) :
    dupdate [] other = other := by
  have h : ∀ k ∈ other.map Prod.fst, alookup ([] : List (α × β)) k = none :=
    fun _ _ => rfl
  rw [dupdate_eq_append h hnd]
  rfl

theorem alookup_dupdate_of_not_mem {α β : Type} [DecidableEq α]
    {other : List (α × β)} (d : List (α × β)) {k : α}
    (h : k ∉ other.map Prod.fst) :
    alookup (dupdate d other) k = alookup d k := by
  induction other generalizing d with
  | nil => rfl
  | cons hd tl ih =>
    obtain ⟨k0, v0⟩ := hd
    simp only [List.map_cons, List.mem_cons, not_or] at h
    rw [dupdate_cons, ih _ h.2, alookup_aset_ne _ _ _ _ (fun hh => h.1 hh)]

theorem alookup_dupdate_of_nodup_mem {α β : Type} [DecidableEq α]
    {other : List (α × β)} (d : List (α × β)) {k : α} {v : β}
    (hnd : (other.map Prod.fst).Nodup) (h : (k, v) ∈ other) :
    alookup (dupdate d other) k = some v := by
  induction other generalizing d with
  | nil => cases h
  | cons hd tl ih =>
    obtain ⟨k0, v0⟩ := hd
    simp only [List.map_cons, List.nodup_cons] at hnd
    rcases List.mem_cons.mp h with h | h
    · rw [Prod.mk.injEq] at h
      obtain ⟨rfl, rfl⟩ := h
      rw [dupdate_cons, alookup_dupdate_of_not_mem _ hnd.1,
          alookup_aset_self]
    · rw [dupdate_cons]
      exact ih _ hnd.2 h

theorem dupdate_eq_self {α β : Type} [DecidableEq α]
    {d other : List (α × β)}
    (h : ∀ kv ∈ other, alookup d kv.1 = some kv.2) :
    dupdate d other = d := by
  induction other with
  | nil => rfl
  | cons hd tl ih =>
    obtain ⟨k, v⟩ := hd
    rw [dupdate_cons, aset_eq_self_of_alookup (h (k, v) (by simp))]
    exact ih (fun kv hkv => h kv (by simp [hkv]))

/-! Field-preservation lemmas for the graph operations. -/

theorem addNode_struct (g : ResGraph) (n : String) (a : AttrD) :
    (addNode g n a).struct = g.struct := by
  unfold addNode
  cases alookup g.nodes n <;> rfl

theorem addNode_edges (g : ResGraph) (n : String) (a : AttrD) :
    (addNode g n a).edges = g.edges := by
  unfold addNode
  cases alookup g.nodes n <;> rfl

theorem addEdge_struct (g : ResGraph) (u v : String) (a : AttrD) :
    (addEdge g u v a).struct = g.struct := by
  unfold addEdge
  by_cases hu : (alookup g.nodes u).isSome <;>
    simp only [hu, if_true, if_false, Bool.false_eq_true] <;>
    split <;> rfl

theorem addEdge_edges_base (g : ResGraph) (u v : String) (a : AttrD) :
    ∃ d0, alookup g.edges (u, v) = d0 ∧
      (addEdge g u v a).edges = aset g.edges (u, v) (dupdate (d0.getD []) a) := by
  refine ⟨alookup g.edges (u, v), rfl, ?_⟩
  unfold addEdge
  by_cases hu : (alookup g.nodes u).isSome <;>
    simp only [hu, if_true, if_false, Bool.false_eq_true] <;>
    split <;> rfl

/-! Reduction lemmas for the Except monad and the add operations. -/

theorem except_bind_ok {ε α β : Type} (a : α) (f : α → Except ε β) :
    (Except.ok a : Except ε α) >>= f = f a := rfl

theorem except_bind_error {ε α β : Type} (e : ε) (f : α → Except ε β) :
    (Except.error e : Except ε α) >>= f = Except.error e := rfl

theorem except_pure {ε α : Type} (a : α) :
    (pure a : Except ε α) = Except.ok a := rfl

theorem alookup_cons_self {α β : Type} [DecidableEq α]
    (k : α) (v : β) (rest : List (α × β)) :
    alookup ((k, v) :: rest) k = some v := by
  simp [alookup]

theorem alookup_cons_ne {α β : Type} [DecidableEq α]
    {k k' : α} (v : β) (rest : List (α × β)) (h : k ≠ k') :
    alookup ((k, v) :: rest) k' = alookup rest k' := by
  simp [alookup, h]

theorem alookup_append_singleton_ne {α β : Type} [DecidableEq α]
    (l : List (α × β)) (k k' : α) (v : β) (h : k' ≠ k) :
    alookup (l ++ [(k, v)]) k' = alookup l k' := by
  cases hl : alookup l k' with
  | some w => exact alookup_append_of_some _ hl
  | none =>
    rw [alookup_append_of_none _ hl]
    exact alookup_cons_ne v [] (fun hh => h hh.symm)

theorem alookup_append_singleton_self {α β : Type} [DecidableEq α]
    (l : List (α × β)) (k : α) (v : β) (h : alookup l k = none) :
    alookup (l ++ [(k, v)]) k = some v := by
  rw [alookup_append_of_none _ h]
  exact alookup_cons_self k v []

theorem alookup_isSome_of_mem_keys {α β : Type} [DecidableEq α]
    {l : List (α × β)} {k : α} (h : k ∈ l.map Prod.fst) :
    (alookup l k).isSome := by
  induction l with
  | nil => cases h
  | cons hd tl ih =>
    obtain ⟨k0, v0⟩ := hd
    by_cases hk : k0 = k
    · simp [alookup, hk]
    · simp only [List.map_cons, List.mem_cons] at h
      rcases h with h | h
      · exact absurd h.symm hk
      · simp only [alookup, if_neg hk]
        exact ih h

theorem not_mem_keys_of_alookup_none {α β : Type} [DecidableEq α]
    {l : List (α × β)} {k : α} (h : alookup l k = none) :
    k ∉ l.map Prod.fst := by
  intro hm
  have hs := alookup_isSome_of_mem_keys hm
  rw [h] at hs
  cases hs

/-! Equation lemmas for addNode. -/

theorem addNode_eq_new {g : ResGraph} {n : String} (attr : AttrD)
    (h : alookup g.nodes n = none) :
    addNode g n attr = { g with nodes := g.nodes ++ [(n, dupdate [] attr)] } := by
  unfold addNode
  rw [h]

theorem addNode_eq_old {g : ResGraph} {n : String} (attr : AttrD) {d : AttrD}
    (h : alookup g.nodes n = some d) :
    addNode g n attr = { g with nodes := aset g.nodes n (dupdate d attr) } := by
  unfold addNode
  rw [h]

/-! Success and failure characterization of add_technology and add_fuel. -/

theorem add_technology_eq_ok {g : ResGraph} {i : String} {pm vm : AttrD}
    (l t : String) (y : Int)
    (hp : get_params g.struct i = .ok pm)
    (hv : get_variables g.struct i = .ok vm)
    (hnd : ((techBase t y i ++ pm ++ vm).map Prod.fst).Nodup) :
    add_technology g l t y i = .ok (addNode g l (techBase t y i ++ pm ++ vm)) := by
  unfold add_technology buildKwargs
  rw [hp, except_bind_ok, hv, except_bind_ok, if_pos hnd, except_bind_ok]
  rfl

theorem add_technology_eq_error {g : ResGraph} {i : String} {pm vm : AttrD}
    (l t : String) (y : Int)
    (hp : get_params g.struct i = .ok pm)
    (hv : get_variables g.struct i = .ok vm)
    (hnd : ¬ ((techBase t y i ++ pm ++ vm).map Prod.fst).Nodup) :
    add_technology g l t y i
      = .error (.typeError "got multiple values for keyword argument") := by
  unfold add_technology buildKwargs
  rw [hp, except_bind_ok, hv, except_bind_ok, if_neg hnd, except_bind_error]

theorem add_technology_ok_elim {g g' : ResGraph} {l t : String} {y : Int}
    {i : String} (h : add_technology g l t y i = .ok g') :
    ∃ pm vm, get_params g.struct i = .ok pm ∧ get_variables g.struct i = .ok vm ∧
      ((techBase t y i ++ pm ++ vm).map Prod.fst).Nodup ∧
      g' = addNode g l (techBase t y i ++ pm ++ vm) := by
  unfold add_technology buildKwargs at h
  cases hp : get_params g.struct i with
  | error e => rw [hp, except_bind_error] at h; cases h
  | ok pm =>
    rw [hp, except_bind_ok] at h
    cases hv : get_variables g.struct i with
    | error e => rw [hv, except_bind_error] at h; cases h
    | ok vm =>
      rw [hv, except_bind_ok] at h
      by_cases hnd : ((techBase t y i ++ pm ++ vm).map Prod.fst).Nodup
      · rw [if_pos hnd, except_bind_ok, except_pure] at h
        injection h with h
        exact ⟨pm, vm, rfl, rfl, hnd, h.symm⟩
      · rw [if_neg hnd, except_bind_error] at h
        cases h

theorem add_fuel_eq_ok {g : ResGraph} {i : String} {pm vm : AttrD}
    (a b fl ft : String)
    (hp : get_params g.struct i = .ok pm)
    (hv : get_variables g.struct i = .ok vm)
    (hnd : ((fuelBase fl ft i ++ pm ++ vm).map Prod.fst).Nodup) :
    add_fuel g a b fl ft i = .ok (addEdge g a b (fuelBase fl ft i ++ pm ++ vm)) := by
  unfold add_fuel buildKwargs
  rw [hp, except_bind_ok, hv, except_bind_ok, if_pos hnd, except_bind_ok]
  rfl

theorem add_fuel_ok_elim {g g' : ResGraph} {a b fl ft : String}
    {i : String} (h : add_fuel g a b fl ft i = .ok g') :
    ∃ pm vm, get_params g.struct i = .ok pm ∧ get_variables g.struct i = .ok vm ∧
      ((fuelBase fl ft i ++ pm ++ vm).map Prod.fst).Nodup ∧
      g' = addEdge g a b (fuelBase fl ft i ++ pm ++ vm) := by
  unfold add_fuel buildKwargs at h
  cases hp : get_params g.struct i with
  | error e => rw [hp, except_bind_error] at h; cases h
  | ok pm =>
    rw [hp, except_bind_ok] at h
    cases hv : get_variables g.struct i with
    | error e => rw [hv, except_bind_error] at h; cases h
    | ok vm =>
      rw [hv, except_bind_ok] at h
      by_cases hnd : ((fuelBase fl ft i ++ pm ++ vm).map Prod.fst).Nodup
      · rw [if_pos hnd, except_bind_ok, except_pure] at h
        injection h with h
        exact ⟨pm, vm, rfl, rfl, hnd, h.symm⟩
      · rw [if_neg hnd, except_bind_error] at h
        cases h

/-! Idempotence of networkx add_node at identical attributes. -/

theorem addNode_idem (g : ResGraph) (n : String) (a : AttrD)
    (hnd : (a.map Prod.fst).Nodup) :
    addNode (addNode g n a) n a = addNode g n a := by
  have hself : ∀ kv ∈ a, alookup a kv.1 = some kv.2 := by
    intro kv hkv
    obtain ⟨k, v⟩ := kv
    exact alookup_of_nodup_mem hnd hkv
  cases hl : alookup g.nodes n with
  | none =>
    rw [addNode_eq_new a hl, dupdate_nil_left hnd]
    have h2 : alookup ({ g with nodes := g.nodes ++ [(n, a)] } : ResGraph).nodes n
        = some a := by
      show alookup (g.nodes ++ [(n, a)]) n = some a
      exact alookup_append_singleton_self _ n a hl
    rw [addNode_eq_old a h2]
    have h3 : dupdate a a = a := dupdate_eq_self hself
    rw [h3]
    show ({ g with nodes := aset (g.nodes ++ [(n, a)]) n a } : ResGraph)
      = { g with nodes := g.nodes ++ [(n, a)] }
    rw [aset_eq_self_of_alookup (alookup_append_singleton_self _ n a hl)]
  | some d =>
    rw [addNode_eq_old a hl]
    have h2 : alookup ({ g with nodes := aset g.nodes n (dupdate d a) } : ResGraph).nodes n
        = some (dupdate d a) := by
      show alookup (aset g.nodes n (dupdate d a)) n = some (dupdate d a)
      exact alookup_aset_self _ n _
    rw [addNode_eq_old a h2]
    have h3 : dupdate (dupdate d a) a = dupdate d a := by
      refine dupdate_eq_self ?_
      intro kv hkv
      obtain ⟨k, v⟩ := kv
      exact alookup_dupdate_of_nodup_mem d hnd hkv
    rw [h3]
    show ({ g with nodes := aset (aset g.nodes n (dupdate d a)) n (dupdate d a) } : ResGraph)
      = { g with nodes := aset g.nodes n (dupdate d a) }
    rw [aset_eq_self_of_alookup (alookup_aset_self _ n _)]

/-! addEdge: effect on the node dict. -/

theorem addEdge_nodes_lookup_bare (g : ResGraph) (u v : String) (a : AttrD)
    (hv0 : alookup g.nodes v = none) :
    alookup (addEdge g u v a).nodes v = some [] := by
  unfold addEdge
  by_cases hu : (alookup g.nodes u).isSome
  · simp only [hu, if_true]
    rw [hv0]
    simp only [Option.isSome_none, Bool.false_eq_true, if_false]
    show alookup (g.nodes ++ [(v, [])]) v = some []
    exact alookup_append_singleton_self _ v [] hv0
  · simp only [hu, Bool.false_eq_true, if_false]
    by_cases huv : v = u
    · subst huv
      have h1 : alookup (g.nodes ++ [(v, ([] : AttrD))]) v = some [] :=
        alookup_append_singleton_self _ v [] hv0
      show alookup (if (alookup (g.nodes ++ [(v, [])]) v).isSome
          then ({ g with nodes := g.nodes ++ [(v, [])] } : ResGraph)
          else { g with nodes := (g.nodes ++ [(v, [])]) ++ [(v, [])] }).nodes v
        = some []
      rw [h1]
      simp only [Option.isSome_some, if_true]
      exact h1
    · have h1 : alookup (g.nodes ++ [(u, ([] : AttrD))]) v = alookup g.nodes v :=
        alookup_append_singleton_ne _ u v [] huv
      show alookup (if (alookup (g.nodes ++ [(u, [])]) v).isSome
          then ({ g with nodes := g.nodes ++ [(u, [])] } : ResGraph)
          else { g with nodes := (g.nodes ++ [(u, [])]) ++ [(v, [])] }).nodes v
        = some []
      rw [h1, hv0]
      simp only [Option.isSome_none, Bool.false_eq_true, if_false]
      show alookup ((g.nodes ++ [(u, [])]) ++ [(v, [])]) v = some []
      refine alookup_append_singleton_self _ v [] ?_
      rw [h1]
      exact hv0

theorem addEdge_nodes_of_present (g : ResGraph) (u v : String) (a : AttrD)
    (hu : (alookup g.nodes u).isSome) (hv0 : (alookup g.nodes v).isSome) :
    (addEdge g u v a).nodes = g.nodes := by
  unfold addEdge
  simp only [hu, if_true, hv0]

/-! Membership characterization of the get_params and get_variables
comprehension. -/

theorem mem_select_iff (l : List (String × FieldSpec)) (i : String)
    (p : String) (d : JVal) :
    ((p, d) ∈ l.filterMap fun pft =>
        if i ∈ pft.2.indices then some (pft.1, pft.2.default) else none)
      ↔ ∃ ft, (p, ft) ∈ l ∧ i ∈ ft.indices ∧ ft.default = d := by
  rw [List.mem_filterMap]
  constructor
  · rintro ⟨⟨q, ft⟩, hmem, hif⟩
    by_cases hi : i ∈ ft.indices
    · rw [if_pos hi] at hif
      simp only [Option.some.injEq, Prod.mk.injEq] at hif
      obtain ⟨rfl, rfl⟩ := hif
      exact ⟨ft, hmem, hi, rfl⟩
    · rw [if_neg hi] at hif
      cases hif
  · rintro ⟨ft, hmem, hi, hd⟩
    refine ⟨(p, ft), hmem, ?_⟩
    rw [if_pos hi, hd]

/-! Claim theorems. -/

/-- Claim C1 (code evaluation at the failing input): constructing the graph
with the skeleton file missing does not raise and leaves the loaded
structure empty, but for every index code the subsequent get_params and
get_variables calls raise KeyError instead of returning the empty mapping
the specification promises. -/
theorem c1_missing_file_queries_raise :
    (ResGraph.init fsysMissing).struct = { params := none, vars := none } ∧
    ∀ i : String,
      get_params (ResGraph.init fsysMissing).struct i
        = .error (.keyError "params") ∧
      get_variables (ResGraph.init fsysMissing).struct i
        = .error (.keyError "variables") :=
  ⟨rfl, fun _ => ⟨rfl, rfl⟩⟩

/-- Claim C3: for every well-formed loaded schema and every index code i,
get_params returns exactly the parameters whose declared indices contain i,
mapped to their declared defaults, with no extras and no omissions, and
get_variables satisfies the analogous set-equality over the schema's
variables. -/
theorem c3_get_params_get_variables_exact (st : StructureData)
    (ps vs : List (String × FieldSpec)) (i : String)
    (hp : st.params = some ps) (hv : st.vars = some vs) :
    ∃ mp mv, get_params st i = .ok mp ∧ get_variables st i = .ok mv ∧
      (∀ p d, (p, d) ∈ mp ↔ ∃ ft, (p, ft) ∈ ps ∧ i ∈ ft.indices ∧ ft.default = d) ∧
      (∀ p d, (p, d) ∈ mv ↔ ∃ ft, (p, ft) ∈ vs ∧ i ∈ ft.indices ∧ ft.default = d) := by
  refine ⟨ps.filterMap fun pft =>
            if i ∈ pft.2.indices then some (pft.1, pft.2.default) else none,
          vs.filterMap fun vft =>
            if i ∈ vft.2.indices then some (vft.1, vft.2.default) else none,
          ?_, ?_,
          fun p d => mem_select_iff ps i p d,
          fun p d => mem_select_iff vs i p d⟩
  · simp only [get_params, hp]
  · simp only [get_variables, hv]

/-- Witness for claim C3 at the concrete schema skT and index "t". -/
theorem c3_witness :
    ∃ mp mv, get_params skT "t" = .ok mp ∧ get_variables skT "t" = .ok mv ∧
      (∀ p d, (p, d) ∈ mp ↔ ∃ ft,
        (p, ft) ∈ [("Capacity", (⟨["t"], JVal.num 0⟩ : FieldSpec))] ∧
        "t" ∈ ft.indices ∧ ft.default = d) ∧
      (∀ p d, (p, d) ∈ mv ↔ ∃ ft,
        (p, ft) ∈ [("NewCapacity", (⟨["t"], JVal.num 1⟩ : FieldSpec))] ∧
        "t" ∈ ft.indices ∧ ft.default = d) :=
  c3_get_params_get_variables_exact skT
    [("Capacity", ⟨["t"], JVal.num 0⟩)]
    [("NewCapacity", ⟨["t"], JVal.num 1⟩)] "t" rfl rfl

/-- Claim C9: get_params and get_variables are pure queries — viewed as
method calls on the graph state they return the node dict, edge dict and
loaded structure unchanged. -/
theorem c9_get_queries_pure (g : ResGraph) (i j : String)
    (r s : AttrD) (g2 g3 : ResGraph)
    (hp : g.get_params_m i = .ok (r, g2))
    (hv : g.get_variables_m j = .ok (s, g3)) :
    g2.nodes = g.nodes ∧ g2.edges = g.edges ∧ g2.struct = g.struct ∧
    g3.nodes = g.nodes ∧ g3.edges = g.edges ∧ g3.struct = g.struct := by
  unfold ResGraph.get_params_m at hp
  unfold ResGraph.get_variables_m at hv
  cases hq : get_params g.struct i with
  | error e => rw [hq] at hp; cases hp
  | ok m =>
    rw [hq] at hp
    simp only [Except.map] at hp
    injection hp with hp
    injection hp with hp1 hp2
    cases hw : get_variables g.struct j with
    | error e => rw [hw] at hv; cases hv
    | ok m2 =>
      rw [hw] at hv
      simp only [Except.map] at hv
      injection hv with hv
      injection hv with hv1 hv2
      subst hp2
      subst hv2
      exact ⟨rfl, rfl, rfl, rfl, rfl, rfl⟩

/-- Witness for claim C9 at the concrete schema skT and index "t". -/
theorem c9_witness :
    (ResGraph.init (fsysOf skT)).nodes = (ResGraph.init (fsysOf skT)).nodes ∧
    (ResGraph.init (fsysOf skT)).edges = (ResGraph.init (fsysOf skT)).edges ∧
    (ResGraph.init (fsysOf skT)).struct = (ResGraph.init (fsysOf skT)).struct ∧
    (ResGraph.init (fsysOf skT)).nodes = (ResGraph.init (fsysOf skT)).nodes ∧
    (ResGraph.init (fsysOf skT)).edges = (ResGraph.init (fsysOf skT)).edges ∧
    (ResGraph.init (fsysOf skT)).struct = (ResGraph.init (fsysOf skT)).struct :=
  c9_get_queries_pure (ResGraph.init (fsysOf skT)) "t" "t"
    [("Capacity", JVal.num 0)] [("NewCapacity", JVal.num 1)]
    (ResGraph.init (fsysOf skT)) (ResGraph.init (fsysOf skT)) rfl rfl

/-- Claim C10 (frame of add_technology): a successful call leaves the loaded
structure and the whole edge dict unchanged, and every node other than the
given label keeps exactly its previous attribute dict. -/
theorem c10_add_technology_frame (g g' : ResGraph) (l t : String) (y : Int)
    (i : String) (h : add_technology g l t y i = .ok g') :
    g'.struct = g.struct ∧ g'.edges = g.edges ∧
    ∀ n, n ≠ l → alookup g'.nodes n = alookup g.nodes n := by
  obtain ⟨pm, vm, hp, hv, hnd, rfl⟩ := add_technology_ok_elim h
  refine ⟨addNode_struct g l _, addNode_edges g l _, ?_⟩
  intro n hn
  cases hl : alookup g.nodes l with
  | none =>
    rw [addNode_eq_new _ hl]
    exact alookup_append_singleton_ne _ l n _ hn
  | some d =>
    rw [addNode_eq_old _ hl]
    exact alookup_aset_ne _ l n _ hn

/-- Witness for claim C10: adding "A" to a graph already holding node "B"
and edge ("B", "B") with the empty well-formed schema. -/
theorem c10_witness :
    (ResGraph.mk "p" skEmpty
        [("B", []), ("A", [("tech_type", JVal.str "T"), ("layer", JVal.num 0),
                           ("index", JVal.str "t")])]
        [(("B", "B"), [])]).struct
      = (ResGraph.mk "p" skEmpty [("B", [])] [(("B", "B"), [])]).struct ∧
    (ResGraph.mk "p" skEmpty
        [("B", []), ("A", [("tech_type", JVal.str "T"), ("layer", JVal.num 0),
                           ("index", JVal.str "t")])]
        [(("B", "B"), [])]).edges
      = (ResGraph.mk "p" skEmpty [("B", [])] [(("B", "B"), [])]).edges ∧
    ∀ n, n ≠ "A" →
      alookup (ResGraph.mk "p" skEmpty
        [("B", []), ("A", [("tech_type", JVal.str "T"), ("layer", JVal.num 0),
                           ("index", JVal.str "t")])]
        [(("B", "B"), [])]).nodes n
      = alookup (ResGraph.mk "p" skEmpty [("B", [])] [(("B", "B"), [])]).nodes n :=
  c10_add_technology_frame (ResGraph.mk "p" skEmpty [("B", [])] [(("B", "B"), [])])
    (ResGraph.mk "p" skEmpty
      [("B", []), ("A", [("tech_type", JVal.str "T"), ("layer", JVal.num 0),
                         ("index", JVal.str "t")])]
      [(("B", "B"), [])])
    "A" "T" 0 "t" rfl

/-- Claim C2 (counterexample): with the spec's scenario schema — one
parameter Capacity tagged for index "technology" with default 0 —
add_technology("PWRGEO", "Geothermal Power Plant", layer 0) with the index
argument left at its default yields a node whose index attribute is "t",
not "technology", whose attributes have no key "type", and which carries no
Capacity entry (the default index code is "t", and the type goes under key
tech_type). -/
theorem c2_counterexample :
    add_technology (ResGraph.init (fsysOf skTechnology)) "PWRGEO"
        "Geothermal Power Plant" 0
      = .ok (ResGraph.mk "./Structure/skeleton.json" skTechnology
          [("PWRGEO", [("tech_type", JVal.str "Geothermal Power Plant"),
                       ("layer", JVal.num 0), ("index", JVal.str "t")])] []) ∧
    alookup [("tech_type", JVal.str "Geothermal Power Plant"),
             ("layer", JVal.num 0), ("index", JVal.str "t")] "index"
      = some (JVal.str "t") ∧
    some (JVal.str "t") ≠ some (JVal.str "technology") ∧
    alookup [("tech_type", JVal.str "Geothermal Power Plant"),
             ("layer", JVal.num 0), ("index", JVal.str "t")] "type" = none ∧
    alookup [("tech_type", JVal.str "Geothermal Power Plant"),
             ("layer", JVal.num 0), ("index", JVal.str "t")] "Capacity" = none :=
  ⟨rfl, rfl, by decide, rfl, rfl⟩

/-- Claim C2 (amended): for every label, verbose type and layer, under a
well-formed schema, a fresh label and collision-free keywords, calling
add_technology with the index argument left at its default "t" yields a
node whose attributes are exactly: the verbose type under key tech_type,
the layer under key layer, the index code "t" under key index, and one
entry per schema parameter/variable tagged with "t", each equal to its
declared default. -/
theorem c2_add_technology_default_attrs (g : ResGraph) (label ttype : String)
    (y : Int) (pm vm : AttrD)
    (hp : get_params g.struct "t" = .ok pm)
    (hv : get_variables g.struct "t" = .ok vm)
    (hfresh : alookup g.nodes label = none)
    (hnd : ((techBase ttype y "t" ++ pm ++ vm).map Prod.fst).Nodup) :
    ∃ g', add_technology g label ttype y = .ok g' ∧
      alookup g'.nodes label = some (techBase ttype y "t" ++ pm ++ vm) ∧
      alookup (techBase ttype y "t" ++ pm ++ vm) "tech_type"
        = some (JVal.str ttype) ∧
      alookup (techBase ttype y "t" ++ pm ++ vm) "layer" = some (JVal.num y) ∧
      alookup (techBase ttype y "t" ++ pm ++ vm) "index" = some (JVal.str "t") ∧
      (∀ p d, (p, d) ∈ pm ++ vm →
        alookup (techBase ttype y "t" ++ pm ++ vm) p = some d) ∧
      (techBase ttype y "t" ++ pm ++ vm).map Prod.fst
        = ["tech_type", "layer", "index"] ++ pm.map Prod.fst ++ vm.map Prod.fst := by
  refine ⟨_, add_technology_eq_ok label ttype y hp hv hnd, ?_, ?_, ?_, ?_, ?_, ?_⟩
  · rw [addNode_eq_new _ hfresh, dupdate_nil_left hnd]
    exact alookup_append_singleton_self _ label _ hfresh
  · exact alookup_cons_self _ _ _
  · rw [show techBase ttype y "t" ++ pm ++ vm
        = ("tech_type", JVal.str ttype) :: ("layer", JVal.num y)
          :: ("index", JVal.str "t") :: (pm ++ vm) from rfl]
    rw [alookup_cons_ne _ _ (by decide)]
    exact alookup_cons_self _ _ _
  · rw [show techBase ttype y "t" ++ pm ++ vm
        = ("tech_type", JVal.str ttype) :: ("layer", JVal.num y)
          :: ("index", JVal.str "t") :: (pm ++ vm) from rfl]
    rw [alookup_cons_ne _ _ (by decide), alookup_cons_ne _ _ (by decide)]
    exact alookup_cons_self _ _ _
  · intro p d hm
    rcases List.mem_append.mp hm with h1 | h1
    · exact alookup_of_nodup_mem hnd
        (List.mem_append.mpr (Or.inl (List.mem_append.mpr (Or.inr h1))))
    · exact alookup_of_nodup_mem hnd (List.mem_append.mpr (Or.inr h1))
  · simp [techBase]

/-- Witness for claim C2 (amended) at the schema skT, label PWRGEO,
type Geothermal Power Plant and layer 0. -/
theorem c2_witness :
    ∃ g', add_technology (ResGraph.init (fsysOf skT)) "PWRGEO"
        "Geothermal Power Plant" 0 = .ok g' ∧
      alookup g'.nodes "PWRGEO"
        = some (techBase "Geothermal Power Plant" 0 "t"
            ++ [("Capacity", JVal.num 0)] ++ [("NewCapacity", JVal.num 1)]) ∧
      alookup (techBase "Geothermal Power Plant" 0 "t"
            ++ [("Capacity", JVal.num 0)] ++ [("NewCapacity", JVal.num 1)])
          "tech_type" = some (JVal.str "Geothermal Power Plant") ∧
      alookup (techBase "Geothermal Power Plant" 0 "t"
            ++ [("Capacity", JVal.num 0)] ++ [("NewCapacity", JVal.num 1)])
          "layer" = some (JVal.num 0) ∧
      alookup (techBase "Geothermal Power Plant" 0 "t"
            ++ [("Capacity", JVal.num 0)] ++ [("NewCapacity", JVal.num 1)])
          "index" = some (JVal.str "t") ∧
      (∀ p d, (p, d) ∈ [("Capacity", JVal.num 0)] ++ [("NewCapacity", JVal.num 1)] →
        alookup (techBase "Geothermal Power Plant" 0 "t"
            ++ [("Capacity", JVal.num 0)] ++ [("NewCapacity", JVal.num 1)]) p
          = some d) ∧
      (techBase "Geothermal Power Plant" 0 "t"
            ++ [("Capacity", JVal.num 0)] ++ [("NewCapacity", JVal.num 1)]).map
          Prod.fst
        = ["tech_type", "layer", "index"]
            ++ [("Capacity", JVal.num 0)].map Prod.fst
            ++ [("NewCapacity", JVal.num 1)].map Prod.fst :=
  c2_add_technology_default_attrs (ResGraph.init (fsysOf skT)) "PWRGEO"
    "Geothermal Power Plant" 0 [("Capacity", JVal.num 0)]
    [("NewCapacity", JVal.num 1)] rfl rfl rfl (by decide)

/-- Claim C5 (counterexample): with a schema parameter named tech_type
tagged for index "t", add_technology does not succeed with the
caller-supplied value taking precedence — it raises TypeError (duplicate
keyword argument). -/
theorem c5_counterexample :
    add_technology (ResGraph.init (fsysOf skClash)) "PWRHYD"
        "Hydroelectric Power Plant" 0
      = .error (.typeError "got multiple values for keyword argument") ∧
    ¬ ∃ g', add_technology (ResGraph.init (fsysOf skClash)) "PWRHYD"
        "Hydroelectric Power Plant" 0 = .ok g' := by
  have h : add_technology (ResGraph.init (fsysOf skClash)) "PWRHYD"
      "Hydroelectric Power Plant" 0
      = .error (.typeError "got multiple values for keyword argument") := rfl
  refine ⟨h, ?_⟩
  rintro ⟨g', hg⟩
  rw [h] at hg
  cases hg

/-- Claim C5 (amended): when a key occurs both among the caller-supplied
base keyword attributes of add_technology and among the schema defaults
returned for that index, the operation does not succeed with caller
precedence — it raises TypeError for the repeated keyword. -/
theorem c5_add_technology_key_collision (g : ResGraph) (l t : String)
    (y : Int) (i : String) (pm vm : AttrD) (k : String)
    (hp : get_params g.struct i = .ok pm)
    (hv : get_variables g.struct i = .ok vm)
    (hbase : k ∈ (techBase t y i).map Prod.fst)
    (hschema : k ∈ pm.map Prod.fst ++ vm.map Prod.fst) :
    add_technology g l t y i
      = .error (.typeError "got multiple values for keyword argument") := by
  refine add_technology_eq_error l t y hp hv ?_
  intro hnd
  rw [List.map_append, List.map_append, List.append_assoc,
      List.nodup_append] at hnd
  exact hnd.2.2 hbase hschema

/-- Witness for claim C5 (amended) at the schema skClash whose parameter
tech_type collides with the base keyword tech_type. -/
theorem c5_witness :
    add_technology (ResGraph.init (fsysOf skClash)) "A" "B" 0 "t"
      = .error (.typeError "got multiple values for keyword argument") :=
  c5_add_technology_key_collision (ResGraph.init (fsysOf skClash)) "A" "B" 0
    "t" [("tech_type", JVal.num 7)] [] "tech_type" rfl rfl (by decide)
    (by decide)

/-- Claim C4 (counterexample): with a well-formed empty schema, the edge
created by add_fuel at its default index carries index attribute "f", not
"fuel". -/
theorem c4_counterexample :
    add_fuel (ResGraph.init (fsysOf skEmpty)) "PWRGEO" "PWRTRN" "ELC001"
        "Electricity before Transmission"
      = .ok (ResGraph.mk "./Structure/skeleton.json" skEmpty
          [("PWRGEO", []), ("PWRTRN", [])]
          [(("PWRGEO", "PWRTRN"),
            [("fuel_label", JVal.str "ELC001"),
             ("fuel_type", JVal.str "Electricity before Transmission"),
             ("index", JVal.str "f")])]) ∧
    alookup [("fuel_label", JVal.str "ELC001"),
             ("fuel_type", JVal.str "Electricity before Transmission"),
             ("index", JVal.str "f")] "index" = some (JVal.str "f") ∧
    some (JVal.str "f") ≠ some (JVal.str "fuel") :=
  ⟨rfl, rfl, by decide⟩

/-- Claim C4 (amended): for distinct labels a and b whose reverse pair
(b, a) is not an edge, add_fuel at its default index "f" (the actual
default, not "fuel") succeeds and yields exactly one directed edge keyed
(a, b), carrying fuel_label, fuel_type, index "f" and the schema
parameters/variables applicable to "f" at their defaults, while (b, a) is
still not an edge. -/
theorem c4_add_fuel_default_edge (g : ResGraph) (a b fl ft : String)
    (pm vm : AttrD)
    (hp : get_params g.struct "f" = .ok pm)
    (hv : get_variables g.struct "f" = .ok vm)
    (hnd : ((fuelBase fl ft "f" ++ pm ++ vm).map Prod.fst).Nodup)
    (hab : a ≠ b)
    (hrev : alookup g.edges (b, a) = none)
    (hkeys : (g.edges.map Prod.fst).Nodup) :
    ∃ g' d, add_fuel g a b fl ft = .ok g' ∧
      alookup g'.edges (a, b) = some d ∧
      (g'.edges.map Prod.fst).Nodup ∧
      alookup d "fuel_label" = some (JVal.str fl) ∧
      alookup d "fuel_type" = some (JVal.str ft) ∧
      alookup d "index" = some (JVal.str "f") ∧
      (∀ p w, (p, w) ∈ pm ++ vm → alookup d p = some w) ∧
      alookup g'.edges (b, a) = none := by
  obtain ⟨d0, hd0, hedges⟩ := addEdge_edges_base g a b (fuelBase fl ft "f" ++ pm ++ vm)
  have hA : fuelBase fl ft "f" ++ pm ++ vm
      = ("fuel_label", JVal.str fl) :: ("fuel_type", JVal.str ft)
        :: ("index", JVal.str "f") :: (pm ++ vm) := rfl
  have hba : (b, a) ≠ (a, b) := by
    intro hh
    rw [Prod.mk.injEq] at hh
    exact hab hh.2
  refine ⟨addEdge g a b (fuelBase fl ft "f" ++ pm ++ vm),
          dupdate (d0.getD []) (fuelBase fl ft "f" ++ pm ++ vm),
          add_fuel_eq_ok a b fl ft hp hv hnd, ?_, ?_, ?_, ?_, ?_, ?_, ?_⟩
  · rw [hedges]
    exact alookup_aset_self _ _ _
  · rw [hedges]
    cases he0 : alookup g.edges (a, b) with
    | some w =>
      rw [aset_keys_of_alookup_some _ (by rw [he0]; rfl)]
      exact hkeys
    | none =>
      rw [aset_append_of_alookup_none _ he0, List.map_append]
      have hnm : (a, b) ∉ g.edges.map Prod.fst := not_mem_keys_of_alookup_none he0
      refine List.nodup_append.mpr ⟨hkeys, by simp, ?_⟩
      intro x hx hx2
      simp only [List.map_cons, List.map_nil, List.mem_singleton] at hx2
      subst hx2
      exact hnm hx
  · refine alookup_dupdate_of_nodup_mem _ hnd ?_
    rw [hA]
    exact List.mem_cons_self _ _
  · refine alookup_dupdate_of_nodup_mem _ hnd ?_
    rw [hA]
    exact List.mem_cons.mpr (Or.inr (List.mem_cons_self _ _))
  · refine alookup_dupdate_of_nodup_mem _ hnd ?_
    rw [hA]
    exact List.mem_cons.mpr (Or.inr (List.mem_cons.mpr (Or.inr (List.mem_cons_self _ _))))
  · intro p w hm
    refine alookup_dupdate_of_nodup_mem _ hnd ?_
    rw [hA]
    exact List.mem_cons.mpr (Or.inr (List.mem_cons.mpr (Or.inr (List.mem_cons.mpr (Or.inr hm)))))
  · rw [hedges]
    rw [alookup_aset_ne _ _ _ _ hba]
    exact hrev

/-- Witness for claim C4 (amended) at the schema skF and the edge
PWRGEO to PWRTRN. -/
theorem c4_witness :
    ∃ g' d, add_fuel (ResGraph.init (fsysOf skF)) "PWRGEO" "PWRTRN" "ELC001"
        "Electricity before Transmission" = .ok g' ∧
      alookup g'.edges ("PWRGEO", "PWRTRN") = some d ∧
      (g'.edges.map Prod.fst).Nodup ∧
      alookup d "fuel_label" = some (JVal.str "ELC001") ∧
      alookup d "fuel_type" = some (JVal.str "Electricity before Transmission") ∧
      alookup d "index" = some (JVal.str "f") ∧
      (∀ p w, (p, w) ∈ [("CapacityToActivityUnit", JVal.num 1)]
          ++ [("UseByTechnology", JVal.num 0)] → alookup d p = some w) ∧
      alookup g'.edges ("PWRTRN", "PWRGEO") = none :=
  c4_add_fuel_default_edge (ResGraph.init (fsysOf skF)) "PWRGEO" "PWRTRN"
    "ELC001" "Electricity before Transmission"
    [("CapacityToActivityUnit", JVal.num 1)] [("UseByTechnology", JVal.num 0)]
    rfl rfl (by decide) (by decide) rfl (by decide)

/-- Claim C6: with a well-formed schema and collision-free keywords,
adding a fuel whose head endpoint b was never added as a technology does
not raise: the directed edge (a, b) is created, and afterwards node b
exists with an empty attribute dict — in particular no tech_type and no
layer attribute. -/
theorem c6_add_fuel_bare_node (g : ResGraph) (a b fl ft : String)
    (pm vm : AttrD)
    (hp : get_params g.struct "f" = .ok pm)
    (hv : get_variables g.struct "f" = .ok vm)
    (hnd : ((fuelBase fl ft "f" ++ pm ++ vm).map Prod.fst).Nodup)
    (hb : alookup g.nodes b = none) :
    ∃ g' d, add_fuel g a b fl ft = .ok g' ∧
      alookup g'.edges (a, b) = some d ∧
      alookup g'.nodes b = some [] ∧
      alookup ([] : AttrD) "tech_type" = none ∧
      alookup ([] : AttrD) "layer" = none := by
  obtain ⟨d0, hd0, hedges⟩ := addEdge_edges_base g a b (fuelBase fl ft "f" ++ pm ++ vm)
  refine ⟨addEdge g a b (fuelBase fl ft "f" ++ pm ++ vm),
          dupdate (d0.getD []) (fuelBase fl ft "f" ++ pm ++ vm),
          add_fuel_eq_ok a b fl ft hp hv hnd, ?_, ?_, rfl, rfl⟩
  · rw [hedges]
    exact alookup_aset_self _ _ _
  · exact addEdge_nodes_lookup_bare g a b _ hb

/-- Witness for claim C6 at the schema skF, adding the fuel PWRGEO to
PWRTRN on the empty graph, where PWRTRN was never added as a technology. -/
theorem c6_witness :
    ∃ g' d, add_fuel (ResGraph.init (fsysOf skF)) "PWRGEO" "PWRTRN" "ELC001"
        "Electricity before Transmission" = .ok g' ∧
      alookup g'.edges ("PWRGEO", "PWRTRN") = some d ∧
      alookup g'.nodes "PWRTRN" = some [] ∧
      alookup ([] : AttrD) "tech_type" = none ∧
      alookup ([] : AttrD) "layer" = none :=
  c6_add_fuel_bare_node (ResGraph.init (fsysOf skF)) "PWRGEO" "PWRTRN"
    "ELC001" "Electricity before Transmission"
    [("CapacityToActivityUnit", JVal.num 1)] [("UseByTechnology", JVal.num 0)]
    rfl rfl (by decide) rfl

/-- Claim C7 (idempotence of add_technology): a second call with the same
label and identical arguments returns exactly the state after the first
call — the node's attribute dict and the graph's node dict are unchanged,
and no duplicate node or attribute entry is created. -/
theorem c7_add_technology_idempotent (g g' : ResGraph) (l t : String)
    (y : Int) (i : String) (h : add_technology g l t y i = .ok g') :
    add_technology g' l t y i = .ok g' := by
  obtain ⟨pm, vm, hp, hv, hnd, rfl⟩ := add_technology_ok_elim h
  have hst : (addNode g l (techBase t y i ++ pm ++ vm)).struct = g.struct :=
    addNode_struct g l _
  have hp' : get_params (addNode g l (techBase t y i ++ pm ++ vm)).struct i
      = .ok pm := by
    rw [hst]
    exact hp
  have hv' : get_variables (addNode g l (techBase t y i ++ pm ++ vm)).struct i
      = .ok vm := by
    rw [hst]
    exact hv
  rw [add_technology_eq_ok l t y hp' hv' hnd]
  exact congrArg Except.ok (addNode_idem g l _ hnd)

/-- Witness for claim C7: re-adding PWRGEO with identical arguments over
the schema skT. -/
theorem c7_witness :
    add_technology (ResGraph.mk "./Structure/skeleton.json" skT
        [("PWRGEO", [("tech_type", JVal.str "Geothermal Power Plant"),
                     ("layer", JVal.num 0), ("index", JVal.str "t"),
                     ("Capacity", JVal.num 0), ("NewCapacity", JVal.num 1)])]
        []) "PWRGEO" "Geothermal Power Plant" 0 "t"
      = .ok (ResGraph.mk "./Structure/skeleton.json" skT
          [("PWRGEO", [("tech_type", JVal.str "Geothermal Power Plant"),
                       ("layer", JVal.num 0), ("index", JVal.str "t"),
                       ("Capacity", JVal.num 0), ("NewCapacity", JVal.num 1)])]
          []) :=
  c7_add_technology_idempotent (ResGraph.init (fsysOf skT))
    (ResGraph.mk "./Structure/skeleton.json" skT
      [("PWRGEO", [("tech_type", JVal.str "Geothermal Power Plant"),
                   ("layer", JVal.num 0), ("index", JVal.str "t"),
                   ("Capacity", JVal.num 0), ("NewCapacity", JVal.num 1)])]
      []) "PWRGEO" "Geothermal Power Plant" 0 "t" rfl

/-- Claim C8: re-adding an already-present label via add_technology, or an
already-present ordered pair via add_fuel, silently merges attributes into
the existing node or edge: node count and node keys (respectively edge
count and edge keys) are unchanged, the other dict is untouched, and
whether either call succeeds never depends on the graph's nodes or edges
(so presence of the label or pair cannot make it fail). -/
theorem c8_readd_merges (g ga gb : ResGraph) (l t : String) (y : Int)
    (i : String) (a b fl ft j : String)
    (hl : (alookup g.nodes l).isSome)
    (ha : add_technology g l t y i = .ok ga)
    (hna : (alookup g.nodes a).isSome)
    (hnb : (alookup g.nodes b).isSome)
    (he : (alookup g.edges (a, b)).isSome)
    (hf : add_fuel g a b fl ft j = .ok gb) :
    ga.nodes.length = g.nodes.length ∧
    ga.nodes.map Prod.fst = g.nodes.map Prod.fst ∧
    ga.edges = g.edges ∧
    gb.edges.length = g.edges.length ∧
    gb.edges.map Prod.fst = g.edges.map Prod.fst ∧
    gb.nodes = g.nodes ∧
    (∀ ns es, ∃ gc,
      add_technology (ResGraph.mk g.skeleton_path g.struct ns es) l t y i
        = .ok gc) ∧
    (∀ ns es, ∃ gc,
      add_fuel (ResGraph.mk g.skeleton_path g.struct ns es) a b fl ft j
        = .ok gc) := by
  obtain ⟨pm, vm, hp, hv, hnd, rfl⟩ := add_technology_ok_elim ha
  obtain ⟨pm2, vm2, hp2, hv2, hnd2, rfl⟩ := add_fuel_ok_elim hf
  obtain ⟨dl, hdl⟩ := Option.isSome_iff_exists.mp hl
  have hga : (addNode g l (techBase t y i ++ pm ++ vm)).nodes
      = aset g.nodes l (dupdate dl (techBase t y i ++ pm ++ vm)) := by
    rw [addNode_eq_old _ hdl]
  have hgb_nodes : (addEdge g a b (fuelBase fl ft j ++ pm2 ++ vm2)).nodes
      = g.nodes := addEdge_nodes_of_present g a b _ hna hnb
  obtain ⟨d0, hd0, hgb_edges⟩ :=
    addEdge_edges_base g a b (fuelBase fl ft j ++ pm2 ++ vm2)
  refine ⟨?_, ?_, ?_, ?_, ?_, hgb_nodes, ?_, ?_⟩
  · rw [hga]
    exact aset_length_of_alookup_some _ hl
  · rw [hga]
    exact aset_keys_of_alookup_some _ hl
  · exact addNode_edges g l _
  · rw [hgb_edges]
    exact aset_length_of_alookup_some _ he
  · rw [hgb_edges]
    exact aset_keys_of_alookup_some _ he
  · intro ns es
    exact ⟨_, add_technology_eq_ok l t y hp hv hnd⟩
  · intro ns es
    exact ⟨_, add_fuel_eq_ok a b fl ft hp2 hv2 hnd2⟩

/-- Witness for claim C8: re-adding node "A" and edge ("A", "B") over the
empty well-formed schema. -/
theorem c8_witness :
    (ResGraph.mk "p" skEmpty
        [("A", [("tech_type", JVal.str "T"), ("layer", JVal.num 0),
                ("index", JVal.str "t")]), ("B", [])]
        [(("A", "B"), [])]).nodes.length
      = (ResGraph.mk "p" skEmpty [("A", []), ("B", [])]
          [(("A", "B"), [])]).nodes.length ∧
    (ResGraph.mk "p" skEmpty
        [("A", [("tech_type", JVal.str "T"), ("layer", JVal.num 0),
                ("index", JVal.str "t")]), ("B", [])]
        [(("A", "B"), [])]).nodes.map Prod.fst
      = (ResGraph.mk "p" skEmpty [("A", []), ("B", [])]
          [(("A", "B"), [])]).nodes.map Prod.fst ∧
    (ResGraph.mk "p" skEmpty
        [("A", [("tech_type", JVal.str "T"), ("layer", JVal.num 0),
                ("index", JVal.str "t")]), ("B", [])]
        [(("A", "B"), [])]).edges
      = (ResGraph.mk "p" skEmpty [("A", []), ("B", [])]
          [(("A", "B"), [])]).edges ∧
    (ResGraph.mk "p" skEmpty [("A", []), ("B", [])]
        [(("A", "B"),
          [("fuel_label", JVal.str "F"), ("fuel_type", JVal.str "FT"),
           ("index", JVal.str "f")])]).edges.length
      = (ResGraph.mk "p" skEmpty [("A", []), ("B", [])]
          [(("A", "B"), [])]).edges.length ∧
    (ResGraph.mk "p" skEmpty [("A", []), ("B", [])]
        [(("A", "B"),
          [("fuel_label", JVal.str "F"), ("fuel_type", JVal.str "FT"),
           ("index", JVal.str "f")])]).edges.map Prod.fst
      = (ResGraph.mk "p" skEmpty [("A", []), ("B", [])]
          [(("A", "B"), [])]).edges.map Prod.fst ∧
    (ResGraph.mk "p" skEmpty [("A", []), ("B", [])]
        [(("A", "B"),
          [("fuel_label", JVal.str "F"), ("fuel_type", JVal.str "FT"),
           ("index", JVal.str "f")])]).nodes
      = (ResGraph.mk "p" skEmpty [("A", []), ("B", [])]
          [(("A", "B"), [])]).nodes ∧
    (∀ ns es, ∃ gc,
      add_technology (ResGraph.mk
          (ResGraph.mk "p" skEmpty [("A", []), ("B", [])]
            [(("A", "B"), [])]).skeleton_path
          (ResGraph.mk "p" skEmpty [("A", []), ("B", [])]
            [(("A", "B"), [])]).struct ns es) "A" "T" 0 "t" = .ok gc) ∧
    (∀ ns es, ∃ gc,
      add_fuel (ResGraph.mk
          (ResGraph.mk "p" skEmpty [("A", []), ("B", [])]
            [(("A", "B"), [])]).skeleton_path
          (ResGraph.mk "p" skEmpty [("A", []), ("B", [])]
            [(("A", "B"), [])]).struct ns es) "A" "B" "F" "FT" "f"
        = .ok gc) :=
  c8_readd_merges
    (ResGraph.mk "p" skEmpty [("A", []), ("B", [])] [(("A", "B"), [])])
    (ResGraph.mk "p" skEmpty
      [("A", [("tech_type", JVal.str "T"), ("layer", JVal.num 0),
              ("index", JVal.str "t")]), ("B", [])]
      [(("A", "B"), [])])
    (ResGraph.mk "p" skEmpty [("A", []), ("B", [])]
      [(("A", "B"),
        [("fuel_label", JVal.str "F"), ("fuel_type", JVal.str "FT"),
         ("index", JVal.str "f")])])
    "A" "T" 0 "t" "A" "B" "F" "FT" "f"
    (by decide) rfl (by decide) (by decide) (by decide) rfl

end ResNet
